import Mathlib

/-!
Verification of the multi-dense-vector storage and custom-query scorer of
`lib/segment/src/vector_storage` (files `simple_multi_dense_vector_storage.rs`
and `query_scorer/multi_custom_query_scorer.rs`), as a shallow embedding.

Scores and vector elements are modelled over `Int` (the code uses `f32`; every
property checked here is structural, none depends on float arithmetic).
Rust panics (`unimplemented!`, `Vec::insert` out of bounds) are modelled as an
explicit `panicked` outcome, distinct from the `OperationError` values the code
returns.
-/

/-- `ScoreType` of the code, modelled over `Int`. -/
abbrev Score := Int

/-- A single dense vector (`DenseVector` / one sub-vector of a multi-vector). -/
abbrev DenseVector := List Int

/-- `MultiDenseVector` / `MultiVector`: an ordered sequence of dense vectors
belonging to one point. `MultiDenseVector::default()` is the empty sequence. -/
abbrev MultiVector := List DenseVector

/-- `StoredRecord<MultiDenseVector>`: the durable unit, one per point offset. -/
structure StoredRecord where
  deleted : Bool
  vector : MultiVector
deriving DecidableEq, Repr

/-- `Distance` (from `crate::types`, external to the two source files): an
opaque metric tag fixed at open time. Its constructors play no role here. -/
inductive Distance
  | cosine
  | euclid
  | dot
deriving DecidableEq, Repr

/-- The error outcomes of storage opening.  `serviceError` models
`OperationError::service_error`, `cancelled` the error produced by
`check_process_stopped` when the stop flag is observed set, and `panicked`
models a Rust panic (an abort, not a returned `OperationError` — kept as an
explicit outcome so that panicking runs are distinguishable in the model). -/
inductive OpError
  | serviceError (msg : String)
  | cancelled
  | panicked
deriving DecidableEq, Repr

/-- Modelled from the spec: `bitvec_set_deleted` (from
`vector_storage/bitvec.rs`, not among the given source files; the spec says the
deletion structure is "a bit per point offset … growing lazily" and that
`set_deleted` must "flip the bit, return the previous flag").  If the index is
in bounds, replace the bit and return the previous value; otherwise grow the
bit-vector (filling with `false`) only when the new flag is `true`, and return
`false` as the previous value. -/
def bitvec_set_deleted (bv : List Bool) (pointId : Nat) (deleted : Bool) :
    List Bool × Bool :=
  if pointId < bv.length then
    (bv.set pointId deleted, bv.getD pointId false)
  else if deleted then
    (bv ++ List.replicate (pointId - bv.length) false ++ [true], false)
  else
    (bv, false)

/-- Rust's `Vec::insert(index, element)`: shift-inserts at `index`.  The
`index > len` case panics in Rust; callers of this model guard it explicitly,
so the `[]`, `n+1` branch below is never reached under that guard. -/
def vecInsert {α : Type} : List α → Nat → α → List α
  | l, 0, a => a :: l
  | [], _ + 1, a => [a]
  | b :: l, n + 1, a => b :: vecInsert l n a

/-- The persistent backend contents of one column family, at the decoded level:
an association list keyed by point offset (the backend itself is external; it
is consumed only through full iteration and `put`). -/
abbrev DbContent := List (Nat × StoredRecord)

/-- Backend `put`: point write of a key/value pair, overwriting the key.  The
backend is an ordered store iterated in key order, so the write keeps the
association list sorted by key (for the small offsets appearing here,
bincode's byte order coincides with numeric order). -/
def dbPut (db : DbContent) (k : Nat) (r : StoredRecord) : DbContent :=
  match db with
  | [] => [(k, r)]
  | (k', r') :: rest =>
    if k < k' then (k, r) :: (k', r') :: rest
    else if k = k' then (k, r) :: rest
    else (k', r') :: dbPut rest k r

/-- `SimpleMultiDenseVectorStorage`: the in-memory mirrored state plus the
backend contents reachable through its `db_wrapper` handle. -/
structure Storage where
  dim : Nat
  distance : Distance
  /-- Keep vectors in memory. -/
  vectors : List MultiVector
  /-- Contents behind the `db_wrapper` handle. -/
  db : DbContent
  /-- Scratch record reused by `update_stored`. -/
  update_buffer : StoredRecord
  /-- BitVec for deleted flags. Grows dynamically up to last set flag. -/
  deleted : List Bool
  /-- Current number of deleted vectors. -/
  deleted_count : Nat
deriving DecidableEq, Repr

/-- The recovery loop of `open_simple_multi_dense_vector_storage`: one step per
backend `(key, value)` pair, in iteration order.  Decoding is abstracted by the
two decoder arguments (`bincode::deserialize`, which either yields a value or
fails); a decode failure of key or value is the corresponding
`service_error`.  The deleted flag is propagated first, then the vector is
placed with `vectors.insert(point_id, …)` — Rust `Vec::insert`, which panics
when `point_id > vectors.len()` — and then `check_process_stopped` runs. -/
def openRec {K V : Type} (decodeKey : K → Option Nat)
    (decodeValue : V → Option StoredRecord) (stopped : Bool) :
    List (K × V) → List MultiVector → List Bool → Nat →
    Except OpError (List MultiVector × List Bool × Nat)
  | [], vectors, deleted, deletedCount => .ok (vectors, deleted, deletedCount)
  | (k, v) :: rest, vectors, deleted, deletedCount =>
    match decodeKey k with
    | none => .error (.serviceError "cannot deserialize point id from db")
    | some pointId =>
      match decodeValue v with
      | none => .error (.serviceError "cannot deserialize record from db")
      | some record =>
        let (deleted, deletedCount) :=
          if record.deleted then
            ((bitvec_set_deleted deleted pointId true).1, deletedCount + 1)
          else (deleted, deletedCount)
        if pointId > vectors.length then
          .error .panicked
        else if stopped then
          .error .cancelled
        else
          openRec decodeKey decodeValue stopped rest
            (vecInsert vectors pointId record.vector) deleted deletedCount

/-- `open_simple_multi_dense_vector_storage` over raw backend pairs plus their
decoders: run recovery, then assemble the storage.  `update_buffer` starts as a
non-deleted default (empty) record.  The decoded backend contents are those the
storage's `db_wrapper` handle sees afterwards. -/
def openStorage {K V : Type} (decodeKey : K → Option Nat)
    (decodeValue : V → Option StoredRecord) (dim : Nat) (distance : Distance)
    (stopped : Bool) (entries : List (K × V)) (decodedDb : DbContent) :
    Except OpError Storage :=
  match openRec decodeKey decodeValue stopped entries [] [] 0 with
  | .error e => .error e
  | .ok (vectors, deleted, deletedCount) =>
    .ok { dim := dim, distance := distance, vectors := vectors,
          db := decodedDb,
          update_buffer := { deleted := false, vector := [] },
          deleted := deleted, deleted_count := deletedCount }

/-- `open_simple_multi_dense_vector_storage` at the decoded level: the backend
holds well-formed `(offset, StoredRecord)` pairs (both decoders succeed). -/
def openDecoded (dim : Nat) (distance : Distance) (stopped : Bool)
    (entries : DbContent) : Except OpError Storage :=
  openStorage some some dim distance stopped entries entries

/-- `set_deleted(key, deleted)`: no-op returning `false` when `key` is beyond
the vector sequence; otherwise delegate the bit flip to `bitvec_set_deleted`
and adjust `deleted_count` (with saturating subtraction) only on an actual
transition.  Returns the new state and the previous flag. -/
def Storage.set_deleted (s : Storage) (key : Nat) (deleted : Bool) :
    Storage × Bool :=
  if key ≥ s.vectors.length then
    (s, false)
  else
    let r := bitvec_set_deleted s.deleted key deleted
    let was_deleted := r.2
    let newCount :=
      if was_deleted ≠ deleted then
        if was_deleted = false then s.deleted_count + 1
        else s.deleted_count - 1
      else s.deleted_count
    ({ s with deleted := r.1, deleted_count := newCount }, was_deleted)

/-- `update_stored(key, deleted, vector)`: write the state into the scratch
buffer record (replacing its vector only when one is supplied), then `put` the
buffer into the backend keyed by `key`.  The in-memory mirror is untouched. -/
def Storage.update_stored (s : Storage) (key : Nat) (deleted : Bool)
    (vector : Option MultiVector) : Storage :=
  let record : StoredRecord :=
    { deleted := deleted,
      vector := match vector with
        | some v => v
        | none => s.update_buffer.vector }
  { s with update_buffer := record, db := dbPut s.db key record }

/-- Modelled from the spec: `get_multi` (the `MultiVectorStorage` trait impl is
not among the given source files; the spec: "direct indexed read of the
in-memory vector sequence", with the empty multi-vector as the defensive
default for out-of-range offsets). -/
def Storage.get_multi (s : Storage) (idx : Nat) : MultiVector :=
  s.vectors.getD idx []

deriving instance DecidableEq for Except

/-- The `Metric` capability (external to the two source files): preprocessing
of a single dense vector plus a pairwise similarity, both pure and total. -/
structure Metric where
  preprocess : DenseVector → DenseVector
  similarity : DenseVector → DenseVector → Score

/-- Modelled from the spec: `score_multivector` (from `query_scorer/mod.rs`,
not among the given source files; the spec: "given a Metric and two
multi-vectors `(query_side, stored_side)`, return one scalar", e.g.
"max-similarity-per-query-subvector summed", "defined even when either
multi-vector is empty (must return a well-defined neutral value)").  For each
query-side sub-vector, take the maximal similarity against the stored side
(contributing the neutral 0 when the stored side is empty) and sum. -/
def score_multivector (m : Metric) (querySide storedSide : MultiVector) :
    Score :=
  querySide.foldl
    (fun acc qa =>
      acc + match storedSide with
        | [] => 0
        | b :: bs => bs.foldl (fun best v => max best (m.similarity qa v))
            (m.similarity qa b))
    0

/-- Metric preprocessing applied to every dense sub-vector of a multi-vector
(what scorer construction does to each example of the query). -/
def preprocessMulti (m : Metric) (mv : MultiVector) : MultiVector :=
  mv.map m.preprocess

/-- The `Query<MultiVector> + TransformInto` capability (external to the two
source files): `score_by` folds a per-example scoring function over the
contained examples with the query's combination policy; `transform` maps a
fallible function over every dense vector contained in the query,
short-circuiting on the first failure. -/
structure QueryOps (Q : Type) where
  score_by : Q → (MultiVector → Score) → Score
  transform : Q → (DenseVector → Except OpError DenseVector) →
    Except OpError Q

/-- `CustomQueryScorer`: borrows the storage (modelled by its `get_multi`
capability), owns the preprocessed query, and carries the metric (a
`PhantomData` type parameter in the code; held as a strategy value here). -/
structure CustomQueryScorer (Q : Type) where
  vector_storage : Nat → MultiVector
  query : Q
  metric : Metric

/-- `CustomQueryScorer::new(query, vector_storage)`: transform the query by
metric preprocessing (the mapped function always returns `Ok`), then `unwrap`
the result — modelled as `none` (panic) when the transform fails. -/
def CustomQueryScorer.new {Q : Type} (ops : QueryOps Q) (m : Metric)
    (query : Q) (vector_storage : Nat → MultiVector) :
    Option (CustomQueryScorer Q) :=
  match ops.transform query (fun vector => .ok (m.preprocess vector)) with
  | .ok q => some { vector_storage := vector_storage, query := q, metric := m }
  | .error _ => none

/-- `score(against)`: fold the query's examples against the supplied
multi-vector via `score_multivector`. -/
def CustomQueryScorer.score {Q : Type} (ops : QueryOps Q)
    (s : CustomQueryScorer Q) (against : MultiVector) : Score :=
  ops.score_by s.query (fun ex => score_multivector s.metric ex against)

/-- `score_stored(idx)`: fetch the multi-vector at `idx` from storage, then
`score` it. -/
def CustomQueryScorer.score_stored {Q : Type} (ops : QueryOps Q)
    (s : CustomQueryScorer Q) (idx : Nat) : Score :=
  CustomQueryScorer.score ops s (s.vector_storage idx)

/-- `score_internal(point_a, point_b)`: the body is `unimplemented!(…)` — it
always panics and never produces a score; modelled as the `none` outcome. -/
def CustomQueryScorer.score_internal {Q : Type} (_s : CustomQueryScorer Q)
    (_pointA _pointB : Nat) : Option Score :=
  none

/-- Map a fallible function over every dense vector of a multi-vector,
short-circuiting on the first failure (the per-example step of a query
transform). -/
def transformMulti (f : DenseVector → Except OpError DenseVector) :
    MultiVector → Except OpError MultiVector
  | [] => .ok []
  | v :: vs =>
    match f v with
    | .error e => .error e
    | .ok w =>
      match transformMulti f vs with
      | .error e => .error e
      | .ok ws => .ok (w :: ws)

/-- Map a fallible function over every dense vector of every example,
short-circuiting on the first failure. -/
def transformExamples (f : DenseVector → Except OpError DenseVector) :
    List MultiVector → Except OpError (List MultiVector)
  | [] => .ok []
  | mv :: mvs =>
    match transformMulti f mv with
    | .error e => .error e
    | .ok w =>
      match transformExamples f mvs with
      | .error e => .error e
      | .ok ws => .ok (w :: ws)

/-- A concrete `Query` instance with a "max of examples" combination policy
(the shape of end-to-end scenario C): it owns a list of example
multi-vectors and combines per-example scores with `max`. -/
structure MaxQuery where
  examples : List MultiVector
deriving DecidableEq, Repr

/-- The `Query`/`TransformInto` capabilities of `MaxQuery`. -/
def maxQueryOps : QueryOps MaxQuery where
  score_by q f :=
    match q.examples with
    | [] => 0
    | e :: es => es.foldl (fun acc x => max acc (f x)) (f e)
  transform q f :=
    match transformExamples f q.examples with
    | .error e => .error e
    | .ok ws => .ok { examples := ws }

/-- Population count of a bit-vector: the number of set bits. -/
def popcount : List Bool → Nat
  | [] => 0
  | true :: t => popcount t + 1
  | false :: t => popcount t

/-- Run a sequence of `set_deleted` calls, discarding the returned flags. -/
def applyDeletes (s : Storage) : List (Nat × Bool) → Storage
  | [] => s
  | c :: cs => applyDeletes (s.set_deleted c.1 c.2).1 cs

/-- The recovery scan, started with `len` vectors already in memory, reaches a
key or value that fails to decode: every earlier entry decodes and its offset
stays within the bounds accepted by `Vec::insert` (so neither a panic nor a
successful completion preempts the decode failure). -/
def reachesDecodeFailure {K V : Type} (decodeKey : K → Option Nat)
    (decodeValue : V → Option StoredRecord) : List (K × V) → Nat → Bool
  | [], _ => false
  | (k, v) :: rest, len =>
    match decodeKey k with
    | none => true
    | some pointId =>
      match decodeValue v with
      | none => true
      | some _ =>
        decide (pointId ≤ len) &&
          reachesDecodeFailure decodeKey decodeValue rest (len + 1)

/-! ### Concrete instances used by counterexamples and witnesses -/

/-- The multi-vector `V2` of end-to-end scenario B. -/
def V2 : MultiVector := [[2, 2]]

/-- Backend contents holding points 0–7, where point 7 holds `V2`. -/
def entriesB : DbContent :=
  [(0, ⟨false, [[1]]⟩), (1, ⟨false, [[1]]⟩), (2, ⟨false, [[1]]⟩),
   (3, ⟨false, [[1]]⟩), (4, ⟨false, [[1]]⟩), (5, ⟨false, [[1]]⟩),
   (6, ⟨false, [[1]]⟩), (7, ⟨false, V2⟩)]

/-- The storage recovered from `entriesB` (checked against `openDecoded` in
the corresponding counterexample): point 7 holds `V2`, nothing is deleted,
and the scratch buffer is the default record. -/
def sB : Storage :=
  { dim := 2, distance := .dot,
    vectors := [[[1]], [[1]], [[1]], [[1]], [[1]], [[1]], [[1]], V2],
    db := entriesB,
    update_buffer := { deleted := false, vector := [] },
    deleted := [], deleted_count := 0 }

/-- A small two-point storage satisfying the deletion-accounting invariant. -/
def sInv : Storage :=
  { dim := 1, distance := .dot, vectors := [[[1]], [[2]]], db := [],
    update_buffer := { deleted := false, vector := [] },
    deleted := [], deleted_count := 0 }

/-- A sample sequence of `set_deleted` calls (with repeats and an
out-of-range offset). -/
def callsW : List (Nat × Bool) :=
  [(0, true), (0, true), (1, true), (0, false), (5, true)]

/-- A sample metric: identity preprocessing, product of leading elements. -/
def m0 : Metric :=
  { preprocess := fun v => v,
    similarity := fun a b => a.headD 0 * b.headD 0 }

/-- A sample storage capability: every offset holds the same multi-vector. -/
def st0 : Nat → MultiVector := fun _ => [[2], [5]]

/-- The scorer `CustomQueryScorer::new` builds from the two-example max query
`{[[1]], [[3]]}` over `m0` and `st0` (preprocessing is the identity). -/
def sc0 : CustomQueryScorer MaxQuery :=
  { vector_storage := st0, query := ⟨[[[1]], [[3]]]⟩, metric := m0 }

/-! ### Helper lemmas -/

lemma popcount_append (l₁ l₂ : List Bool) :
    popcount (l₁ ++ l₂) = popcount l₁ + popcount l₂ := by
  induction l₁ with
  | nil => simp [popcount]
  | cons a t ih => cases a <;> simp [popcount, ih, Nat.add_right_comm]

lemma popcount_replicate_false (n : Nat) :
    popcount (List.replicate n false) = 0 := by
  induction n with
  | zero => rfl
  | succ n ih => simpa [List.replicate_succ, popcount] using ih

lemma popcount_set (l : List Bool) (i : Nat) (b : Bool) (h : i < l.length) :
    popcount (l.set i b) + (if l.getD i false then 1 else 0)
      = popcount l + (if b then 1 else 0) := by
  induction l generalizing i with
  | nil => simp at h
  | cons a t ih =>
    cases i with
    | zero => cases a <;> cases b <;> simp [popcount]
    | succ n =>
      have h' : n < t.length := by simpa using h
      have hrec := ih n h'
      cases a <;> simp [popcount, List.getD] at hrec ⊢ <;> omega

lemma getD_set_self (l : List Bool) (i : Nat) (b : Bool) (h : i < l.length) :
    (l.set i b).getD i false = b := by
  induction l generalizing i with
  | nil => simp at h
  | cons a t ih =>
    cases i with
    | zero => rfl
    | succ n => simpa using ih n (by simpa using h)

lemma getD_append_skip (l t : List Bool) (n : Nat) :
    (l ++ t).getD (l.length + n) false = t.getD n false := by
  induction l with
  | nil => simp
  | cons a l ih => simpa [Nat.succ_add] using ih

lemma getD_replicate_concat (p : Nat) :
    (List.replicate p false ++ [true]).getD p false = true := by
  induction p with
  | zero => rfl
  | succ n ih => simp [List.replicate_succ, ih]

lemma bitvec_grow_getD (bv : List Bool) (k : Nat) (h : ¬ k < bv.length) :
    (bv ++ List.replicate (k - bv.length) false ++ [true]).getD k false
      = true := by
  obtain ⟨m, rfl⟩ : ∃ m, k = bv.length + m :=
    ⟨k - bv.length, (Nat.add_sub_cancel' (Nat.le_of_not_lt h)).symm⟩
  rw [Nat.add_sub_cancel_left, List.append_assoc, getD_append_skip,
    getD_replicate_concat]

lemma bitvec_grow_popcount (bv : List Bool) (k : Nat) :
    popcount (bv ++ List.replicate (k - bv.length) false ++ [true])
      = popcount bv + 1 := by
  simp [popcount_append, popcount_replicate_false, popcount]

lemma bitvec_grow_length (bv : List Bool) (k : Nat) (h : ¬ k < bv.length) :
    (bv ++ List.replicate (k - bv.length) false ++ [true]).length = k + 1 := by
  simp only [List.length_append, List.length_replicate, List.length_singleton]
  omega

lemma set_deleted_vectors_unchanged (s : Storage) (k : Nat) (f : Bool) :
    (s.set_deleted k f).1.vectors = s.vectors := by
  unfold Storage.set_deleted
  split <;> rfl

lemma bitvec_set_deleted_popcount (bv : List Bool) (k : Nat) (f : Bool) :
    popcount (bitvec_set_deleted bv k f).1
      = if (bitvec_set_deleted bv k f).2 ≠ f then
          (if (bitvec_set_deleted bv k f).2 = false then popcount bv + 1
           else popcount bv - 1)
        else popcount bv := by
  unfold bitvec_set_deleted
  by_cases hl : k < bv.length
  · have hset := popcount_set bv k f hl
    rw [if_pos hl]
    dsimp only
    cases hx : bv.getD k false <;> cases f <;> simp at hx hset ⊢ <;>
      simp [hx] at hset ⊢ <;> omega
  · cases f with
    | true =>
      rw [if_neg hl]
      simp [popcount_append, popcount_replicate_false, popcount]
    | false =>
      rw [if_neg hl]
      simp

lemma set_deleted_invariant_step (s : Storage) (k : Nat) (f : Bool)
    (h : s.deleted_count = popcount s.deleted) :
    (s.set_deleted k f).1.deleted_count
      = popcount (s.set_deleted k f).1.deleted := by
  have hpc := bitvec_set_deleted_popcount s.deleted k f
  unfold Storage.set_deleted
  by_cases hk : k ≥ s.vectors.length
  · simpa [hk] using h
  · cases hr2 : (bitvec_set_deleted s.deleted k f).2 <;> cases f <;>
      simp [hk, hr2, h] at hpc ⊢ <;> omega

lemma applyDeletes_invariant (calls : List (Nat × Bool)) (s : Storage)
    (h : s.deleted_count = popcount s.deleted) :
    (applyDeletes s calls).deleted_count
      = popcount (applyDeletes s calls).deleted := by
  induction calls generalizing s with
  | nil => simpa [applyDeletes] using h
  | cons c cs ih =>
    simpa [applyDeletes] using ih _ (set_deleted_invariant_step s c.1 c.2 h)

lemma set_deleted_oob (s : Storage) (k : Nat) (f : Bool)
    (h : k ≥ s.vectors.length) : s.set_deleted k f = (s, false) := by
  unfold Storage.set_deleted
  rw [if_pos h]

lemma set_deleted_true_state (s : Storage) (k : Nat)
    (hk : k < s.vectors.length) :
    k < (s.set_deleted k true).1.deleted.length ∧
    (s.set_deleted k true).1.deleted.getD k false = true := by
  unfold Storage.set_deleted
  rw [if_neg (by omega : ¬ k ≥ s.vectors.length)]
  dsimp only
  unfold bitvec_set_deleted
  by_cases hl : k < s.deleted.length
  · rw [if_pos hl]
    dsimp only
    exact ⟨by simpa using hl, getD_set_self s.deleted k true hl⟩
  · rw [if_neg hl, if_pos rfl]
    refine ⟨?_, bitvec_grow_getD s.deleted k hl⟩
    rw [bitvec_grow_length s.deleted k hl]
    omega

lemma set_deleted_same_flag_count (s : Storage) (k : Nat)
    (hlen : k < s.deleted.length) (hbit : s.deleted.getD k false = true) :
    (s.set_deleted k true).1.deleted_count = s.deleted_count := by
  unfold Storage.set_deleted
  by_cases hk : k ≥ s.vectors.length
  · rw [if_pos hk]
  · rw [if_neg hk]
    dsimp only
    unfold bitvec_set_deleted
    rw [if_pos hlen]
    dsimp only
    rw [hbit]
    simp

lemma set_deleted_transition_incr (s : Storage) (k : Nat)
    (hk : k < s.vectors.length) (hbit : s.deleted.getD k false = false) :
    (s.set_deleted k true).1.deleted_count = s.deleted_count + 1 := by
  unfold Storage.set_deleted
  rw [if_neg (by omega : ¬ k ≥ s.vectors.length)]
  dsimp only
  unfold bitvec_set_deleted
  by_cases hl : k < s.deleted.length
  · rw [if_pos hl]
    dsimp only
    rw [hbit]
    simp
  · rw [if_neg hl]
    simp

lemma lookup_dbPut (db : DbContent) (k : Nat) (r : StoredRecord) :
    (dbPut db k r).lookup k = some r := by
  induction db with
  | nil => simp [dbPut, List.lookup]
  | cons p rest ih =>
    obtain ⟨k', r'⟩ := p
    by_cases h1 : k < k'
    · simp [dbPut, h1, List.lookup]
    · by_cases h2 : k = k'
      · simp [dbPut, h1, h2, List.lookup]
      · have hbeq : (k == k') = false := by simpa using h2
        simp [dbPut, h1, h2, List.lookup, ih, hbeq]

lemma transformMulti_preprocess (m : Metric) (mv : MultiVector) :
    transformMulti (fun v => .ok (m.preprocess v)) mv
      = .ok (preprocessMulti m mv) := by
  induction mv with
  | nil => rfl
  | cons v vs ih => simp [transformMulti, ih, preprocessMulti]

lemma transformExamples_preprocess (m : Metric) (es : List MultiVector) :
    transformExamples (fun v => .ok (m.preprocess v)) es
      = .ok (es.map (preprocessMulti m)) := by
  induction es with
  | nil => rfl
  | cons e es ih => simp [transformExamples, transformMulti_preprocess, ih]

lemma transformMulti_total (f : DenseVector → Except OpError DenseVector)
    (hf : ∀ v, ∃ w, f v = .ok w) (mv : MultiVector) :
    ∃ w, transformMulti f mv = .ok w := by
  induction mv with
  | nil => exact ⟨[], rfl⟩
  | cons v vs ih =>
    obtain ⟨w, hw⟩ := hf v
    obtain ⟨ws, hws⟩ := ih
    exact ⟨w :: ws, by simp [transformMulti, hw, hws]⟩

lemma transformExamples_total (f : DenseVector → Except OpError DenseVector)
    (hf : ∀ v, ∃ w, f v = .ok w) (es : List MultiVector) :
    ∃ ws, transformExamples f es = .ok ws := by
  induction es with
  | nil => exact ⟨[], rfl⟩
  | cons e es ih =>
    obtain ⟨w, hw⟩ := transformMulti_total f hf e
    obtain ⟨ws, hws⟩ := ih
    exact ⟨w :: ws, by simp [transformExamples, hw, hws]⟩

lemma maxQueryOps_transform_total (q : MaxQuery)
    (f : DenseVector → Except OpError DenseVector)
    (hf : ∀ v, ∃ w, f v = .ok w) :
    ∃ q₂, maxQueryOps.transform q f = .ok q₂ := by
  obtain ⟨ws, hws⟩ := transformExamples_total f hf q.examples
  exact ⟨⟨ws⟩, by simp [maxQueryOps, hws]⟩

lemma length_vecInsert {α : Type} (l : List α) (n : Nat) (a : α)
    (h : n ≤ l.length) : (vecInsert l n a).length = l.length + 1 := by
  induction l generalizing n with
  | nil =>
    cases n with
    | zero => rfl
    | succ m => simp at h
  | cons b t ih =>
    cases n with
    | zero => rfl
    | succ m => simpa [vecInsert] using ih m (by simpa using h)

lemma openRec_decode_failure {K V : Type} (decodeKey : K → Option Nat)
    (decodeValue : V → Option StoredRecord) (entries : List (K × V))
    (vectors : List MultiVector) (deleted : List Bool) (cnt : Nat)
    (h : reachesDecodeFailure decodeKey decodeValue entries vectors.length
          = true) :
    openRec decodeKey decodeValue false entries vectors deleted cnt
        = .error (.serviceError "cannot deserialize point id from db") ∨
      openRec decodeKey decodeValue false entries vectors deleted cnt
        = .error (.serviceError "cannot deserialize record from db") := by
  induction entries generalizing vectors deleted cnt with
  | nil => simp [reachesDecodeFailure] at h
  | cons e rest ih =>
    obtain ⟨k, v⟩ := e
    cases hk : decodeKey k with
    | none =>
      left
      simp [openRec, hk]
    | some pointId =>
      cases hv : decodeValue v with
      | none =>
        right
        simp [openRec, hk, hv]
      | some record =>
        simp only [reachesDecodeFailure, hk, hv, Bool.and_eq_true,
          decide_eq_true_eq] at h
        obtain ⟨hle, hrest⟩ := h
        have hlen : (vecInsert vectors pointId record.vector).length
            = vectors.length + 1 := length_vecInsert vectors pointId _ hle
        have hrest' :
            reachesDecodeFailure decodeKey decodeValue rest
              (vecInsert vectors pointId record.vector).length = true := by
          rw [hlen]; exact hrest
        have hng : ¬ pointId > vectors.length := by omega
        simp only [openRec, hk, hv, hng, if_false, Bool.false_eq_true]
        cases hrec : record.deleted <;>
          simpa [hrec] using
            ih _ _ _ hrest'

/-! ### Claim theorems -/

/-- C1: the claim says replaying the same set of persisted records in any
iteration order yields an identical in-memory state.  The code violates it:
`vectors.insert(point_id, …)` is Rust `Vec::insert`, so replaying
`{(0, r0), (1, r1)}` in ascending order succeeds while the reversed order
panics (insert at index 1 into an empty vector) and produces no state at
all. -/
theorem open_not_order_invariant :
    openDecoded 1 .dot false [(0, ⟨false, [[1]]⟩), (1, ⟨true, [[2]]⟩)]
      = .ok { dim := 1, distance := .dot,
              vectors := [[[1]], [[2]]],
              db := [(0, ⟨false, [[1]]⟩), (1, ⟨true, [[2]]⟩)],
              update_buffer := { deleted := false, vector := [] },
              deleted := [false, true], deleted_count := 1 } ∧
    openDecoded 1 .dot false [(1, ⟨true, [[2]]⟩), (0, ⟨false, [[1]]⟩)]
      = .error .panicked :=
  ⟨by decide, by decide⟩

/-- C2: the claim says recovery places every decoded record at index `offset`,
growing the sequence and default-filling intervening slots, and never fails
because of arrival order.  The code violates it: a single record with offset 1
arriving into an empty in-memory sequence makes `Vec::insert` panic instead of
growing the sequence. -/
theorem open_beyond_length_panics :
    openDecoded 1 .dot false [(1, ⟨false, [[2]]⟩)] = .error .panicked := by
  decide

/-- C3 counterexample: `update_stored(7, true, None)` on a freshly opened
storage whose point 7 holds `V2` does not persist `V2`: it persists the
scratch buffer's vector (the default empty one), and reopening reconstructs
offset 7 with the empty vector, not `V2` (deletion bit set, count 1). -/
theorem update_stored_none_stale_vector :
    openDecoded 2 .dot false entriesB = .ok sB ∧
    sB.vectors.getD 7 [] = V2 ∧
    (sB.update_stored 7 true none).db.lookup 7
      = some { deleted := true, vector := [] } ∧
    ¬ ((sB.update_stored 7 true none).db.lookup 7
        = some { deleted := true, vector := V2 }) ∧
    (openDecoded 2 .dot false (sB.update_stored 7 true none).db).map
        (fun s => (s.vectors.getD 7 [], s.deleted.getD 7 false,
          s.deleted_count))
      = .ok ([], true, 1) := by
  refine ⟨by decide, by decide, by decide, by decide, by decide⟩

/-- C3 (amended): `update_stored(offset, flag, None)` writes a record whose
vector is the current content of the scratch `update_buffer` (the vector of
the previous `update_stored` call, initially the default empty multi-vector),
not necessarily the vector stored in memory for that offset; when a vector is
supplied, the written record carries that vector. -/
theorem update_stored_writes_buffer_vector (s : Storage) (key : Nat)
    (d : Bool) :
    (s.update_stored key d none).db.lookup key
      = some { deleted := d, vector := s.update_buffer.vector } ∧
    ∀ v : MultiVector, (s.update_stored key d (some v)).db.lookup key
      = some { deleted := d, vector := v } :=
  ⟨lookup_dbPut s.db key _, fun _ => lookup_dbPut s.db key _⟩

/-- C5: `score_internal` on the custom-query scorer is `unimplemented!` — for
every scorer and every pair of point offsets it panics (modelled as `none`)
and never returns a scalar score. -/
theorem score_internal_unsupported {Q : Type} (sc : CustomQueryScorer Q)
    (pointA pointB : Nat) :
    sc.score_internal pointA pointB = none := rfl

/-- C9: a successful `update_stored` call leaves the in-memory mirror — the
vector sequence, the deletion bit-vector, `deleted_count` (and `dim`,
`distance`) — unchanged; only the backend contents and the scratch buffer
are written. -/
theorem update_stored_frame (s : Storage) (key : Nat) (d : Bool)
    (v : Option MultiVector) :
    (s.update_stored key d v).vectors = s.vectors ∧
    (s.update_stored key d v).deleted = s.deleted ∧
    (s.update_stored key d v).deleted_count = s.deleted_count ∧
    (s.update_stored key d v).dim = s.dim ∧
    (s.update_stored key d v).distance = s.distance :=
  ⟨rfl, rfl, rfl, rfl, rfl⟩

/-- C4: starting from any state where `deleted_count` equals the population
count of the deletion bit-vector, any sequence of `set_deleted` calls
preserves that equality; moreover a second consecutive `set_deleted(k, true)`
never changes the count again (so two calls change it by exactly the first
call's ±1, not 2), and the first call adds exactly 1 on an actual
clear-to-set transition of an in-range offset. -/
theorem set_deleted_accounting (s : Storage) (calls : List (Nat × Bool))
    (k : Nat) (h : s.deleted_count = popcount s.deleted) :
    ((applyDeletes s calls).deleted_count
        = popcount (applyDeletes s calls).deleted) ∧
    (((s.set_deleted k true).1.set_deleted k true).1.deleted_count
        = (s.set_deleted k true).1.deleted_count) ∧
    (k < s.vectors.length → s.deleted.getD k false = false →
      (s.set_deleted k true).1.deleted_count = s.deleted_count + 1) := by
  refine ⟨applyDeletes_invariant calls s h, ?_,
    fun hk hbit => set_deleted_transition_incr s k hk hbit⟩
  by_cases hk : k < s.vectors.length
  · obtain ⟨hlen, hbit⟩ := set_deleted_true_state s k hk
    exact set_deleted_same_flag_count _ k hlen hbit
  · have hge : k ≥ s.vectors.length := Nat.le_of_not_lt hk
    rw [set_deleted_oob s k true hge]
    rw [set_deleted_oob s k true hge]

/-- C4 witness: the accounting theorem applied to the concrete two-point
storage `sInv` and the call sequence `callsW`. -/
theorem set_deleted_accounting_witness :
    sInv.deleted_count = popcount sInv.deleted ∧
    (((applyDeletes sInv callsW).deleted_count
        = popcount (applyDeletes sInv callsW).deleted) ∧
    (((sInv.set_deleted 0 true).1.set_deleted 0 true).1.deleted_count
        = (sInv.set_deleted 0 true).1.deleted_count) ∧
    (0 < sInv.vectors.length → sInv.deleted.getD 0 false = false →
      (sInv.set_deleted 0 true).1.deleted_count = sInv.deleted_count + 1)) :=
  ⟨by decide, set_deleted_accounting sInv callsW 0 (by decide)⟩

/-- C6: `set_deleted(offset, flag)` for an offset at or beyond the current
vector-sequence length returns `false` and leaves the deletion bit-vector
and `deleted_count` unchanged. -/
theorem set_deleted_unknown_offset (s : Storage) (k : Nat) (f : Bool)
    (h : k ≥ s.vectors.length) :
    (s.set_deleted k f).2 = false ∧
    (s.set_deleted k f).1.deleted = s.deleted ∧
    (s.set_deleted k f).1.deleted_count = s.deleted_count := by
  rw [set_deleted_oob s k f h]
  exact ⟨rfl, rfl, rfl⟩

/-- C6 witness: offset 5 on the two-point storage `sInv`. -/
theorem set_deleted_unknown_offset_witness :
    5 ≥ sInv.vectors.length ∧
    ((sInv.set_deleted 5 true).2 = false ∧
      (sInv.set_deleted 5 true).1.deleted = sInv.deleted ∧
      (sInv.set_deleted 5 true).1.deleted_count = sInv.deleted_count) :=
  ⟨by decide, set_deleted_unknown_offset sInv 5 true (by decide)⟩

/-- C7: for a successfully constructed scorer, `score_stored(idx)` is the
query's `score_by` fold of `score_multivector` of each (preprocessed)
example against the multi-vector the storage returns for `idx`; for the
two-example max-combination query the result is the max of the two
per-example aggregates. -/
theorem score_stored_folds (m : Metric) (st : Nat → MultiVector)
    (q1 q2 : MultiVector) (idx : Nat) (sc : CustomQueryScorer MaxQuery)
    (h : CustomQueryScorer.new maxQueryOps m ⟨[q1, q2]⟩ st = some sc) :
    (∀ (Q : Type) (ops : QueryOps Q) (s : CustomQueryScorer Q) (i : Nat),
        CustomQueryScorer.score_stored ops s i
          = ops.score_by s.query
              (fun ex => score_multivector s.metric ex (s.vector_storage i))) ∧
    CustomQueryScorer.score_stored maxQueryOps sc idx
      = max (score_multivector m (preprocessMulti m q1) (st idx))
            (score_multivector m (preprocessMulti m q2) (st idx)) := by
  refine ⟨fun Q ops s i => rfl, ?_⟩
  have hnew : CustomQueryScorer.new maxQueryOps m ⟨[q1, q2]⟩ st
      = some { vector_storage := st,
               query := ⟨[preprocessMulti m q1, preprocessMulti m q2]⟩,
               metric := m } := by
    simp [CustomQueryScorer.new, maxQueryOps, transformExamples_preprocess]
  rw [hnew] at h
  injection h with h2
  subst h2
  rfl

/-- C7 witness: the two-example max query `{[[1]], [[3]]}` over the identity
metric `m0` and storage `st0`. -/
theorem score_stored_folds_witness :
    CustomQueryScorer.new maxQueryOps m0 ⟨[[[1]], [[3]]]⟩ st0 = some sc0 ∧
    CustomQueryScorer.score_stored maxQueryOps sc0 4
      = max (score_multivector m0 (preprocessMulti m0 [[1]]) (st0 4))
            (score_multivector m0 (preprocessMulti m0 [[3]]) (st0 4)) :=
  ⟨rfl, (score_stored_folds m0 st0 [[1]] [[3]] 4 sc0 rfl).2⟩

/-- C8 counterexample: a log whose second entry has an undecodable key does
not make open fail with a service-level error when the first entry's
offset makes `Vec::insert` panic first; and with the stop flag set, the
cancelled condition preempts the decode failure.  Either way the claim's
"fails with a service-level error" is false for a log containing an
undecodable key. -/
theorem open_decode_failure_preempted :
    openStorage (fun k : Option Nat => k) (fun v : Option StoredRecord => v)
        1 .dot false
        [(some 1, some ⟨false, [[1]]⟩), (none, some ⟨false, [[2]]⟩)] []
      = .error .panicked ∧
    openStorage (fun k : Option Nat => k) (fun v : Option StoredRecord => v)
        1 .dot true
        [(some 0, some ⟨false, [[1]]⟩), (none, some ⟨false, [[2]]⟩)] []
      = .error .cancelled :=
  ⟨by decide, by decide⟩

/-- C8 (amended): when the stop flag is unset and every entry before the
first undecodable one decodes to an offset within the bounds accepted by
`Vec::insert`, open fails with one of the two decode service errors and
returns no storage; both service errors are distinct from the cancelled
condition. -/
theorem open_decode_failure_service {K V : Type} (decodeKey : K → Option Nat)
    (decodeValue : V → Option StoredRecord) (entries : List (K × V))
    (dim : Nat) (dist : Distance) (db : DbContent)
    (h : reachesDecodeFailure decodeKey decodeValue entries 0 = true) :
    (openStorage decodeKey decodeValue dim dist false entries db
        = .error (.serviceError "cannot deserialize point id from db") ∨
      openStorage decodeKey decodeValue dim dist false entries db
        = .error (.serviceError "cannot deserialize record from db")) ∧
    OpError.serviceError "cannot deserialize point id from db"
      ≠ OpError.cancelled ∧
    OpError.serviceError "cannot deserialize record from db"
      ≠ OpError.cancelled := by
  refine ⟨?_, by decide, by decide⟩
  have hrec := openRec_decode_failure decodeKey decodeValue entries [] [] 0
    (by simpa using h)
  rcases hrec with h1 | h1
  · left
    simp [openStorage, h1]
  · right
    simp [openStorage, h1]

/-- C8 witness: the amended theorem at a concrete log whose second entry has
an undecodable key, the first entry decoding to offset 0. -/
theorem open_decode_failure_service_witness :
    reachesDecodeFailure (fun k : Option Nat => k)
        (fun v : Option StoredRecord => v)
        [(some 0, some ⟨false, [[1]]⟩), (none, some ⟨false, [[2]]⟩)] 0
      = true ∧
    ((openStorage (fun k : Option Nat => k) (fun v : Option StoredRecord => v)
          3 .cosine false
          [(some 0, some ⟨false, [[1]]⟩), (none, some ⟨false, [[2]]⟩)] []
        = .error (.serviceError "cannot deserialize point id from db") ∨
      openStorage (fun k : Option Nat => k) (fun v : Option StoredRecord => v)
          3 .cosine false
          [(some 0, some ⟨false, [[1]]⟩), (none, some ⟨false, [[2]]⟩)] []
        = .error (.serviceError "cannot deserialize record from db")) ∧
    OpError.serviceError "cannot deserialize point id from db"
      ≠ OpError.cancelled ∧
    OpError.serviceError "cannot deserialize record from db"
      ≠ OpError.cancelled) :=
  ⟨by decide,
    open_decode_failure_service (fun k : Option Nat => k)
      (fun v : Option StoredRecord => v)
      [(some 0, some ⟨false, [[1]]⟩), (none, some ⟨false, [[2]]⟩)]
      3 .cosine [] (by decide)⟩

/-- C10: under the Query contract — `transform` succeeds whenever the mapped
function always succeeds — `CustomQueryScorer::new` never hits the error
branch behind its `unwrap`: construction always returns a scorer. -/
theorem new_never_fails {Q : Type} (ops : QueryOps Q) (m : Metric) (q : Q)
    (st : Nat → MultiVector)
    (hcontract : ∀ (q₁ : Q) (f : DenseVector → Except OpError DenseVector),
        (∀ v, ∃ w, f v = .ok w) → ∃ q₂, ops.transform q₁ f = .ok q₂) :
    (CustomQueryScorer.new ops m q st).isSome = true := by
  obtain ⟨q₂, hq⟩ := hcontract q (fun v => .ok (m.preprocess v))
    (fun v => ⟨m.preprocess v, rfl⟩)
  simp [CustomQueryScorer.new, hq]

/-- C10 witness: construction over the concrete `MaxQuery` instance (whose
`transform` satisfies the contract, `maxQueryOps_transform_total`). -/
theorem new_never_fails_witness :
    (CustomQueryScorer.new maxQueryOps m0 ⟨[[[1]], [[3]]]⟩ st0).isSome
      = true :=
  new_never_fails maxQueryOps m0 ⟨[[[1]], [[3]]]⟩ st0 maxQueryOps_transform_total
